import Mathlib

/-!
# Verification of the web-app user service (main.go)

A shallow embedding of `main.go`: the handlers `createUser`, `getUsers`, the
health handler, `getEnv` and `initDB`, over an explicit model of the PostgreSQL
table `users` declared by `initDB`.

The process-wide handle `db *sql.DB` is threaded explicitly as `Option Store`
(`none` is the nil handle of a process that never ran `initDB`).  Each driver
call consumes one entry of the store's event schedule, which is where lost
connections and writes of concurrent sessions enter the model.
-/

namespace WebApp

/-! ## Data model -/

/-- Seconds on the wall clock; stands for `time.Time` and SQL `TIMESTAMP`. -/
abbrev Time := Nat

/-- User model of main.go, `type User struct`. -/
structure User where
  ID : Int
  Name : String
  Email : String
  CreatedAt : Time
deriving DecidableEq, Repr

/-- Request model of main.go, `type CreateUserRequest struct`. -/
structure CreateUserRequest where
  Name : String
  Email : String
deriving DecidableEq, Repr

/-- One row of table `users`.  `id`, `name` and `email` are NOT NULL; `created_at`
has a default but no NOT NULL constraint, so it may hold NULL (`none`). -/
structure Row where
  id : Int
  name : String
  email : String
  created_at : Option Time
deriving DecidableEq, Repr

/-- The relation `users` together with its sequence `users_id_seq`
(`id SERIAL`): `seq` is the last value the sequence handed out.  The sequence
is taken as unbounded; running out of 32-bit values is one of the rejections
the event `fail` stands for. -/
structure Table where
  rows : List Row
  seq : Nat
deriving DecidableEq, Repr

/-- Errors a driver call can return.  The handlers only test `err == nil`;
the kinds are kept apart so that theorems can speak about the cause. -/
inductive SqlErr
  | noRows                              -- sql.ErrNoRows
  | uniqueViolation (constr : String)   -- SQLSTATE 23505
  | tooLong                             -- value too long for type character varying(100)
  | invalidByte                         -- SQLSTATE 22021: a text value holds the character U+0000
  | sequenceLimit                       -- nextval: users_id_seq has reached its maximum value
  | undefinedTable                      -- relation "users" does not exist
  | nullScan                            -- Scan of NULL into a non-pointer destination
  | driver                              -- connection refused or lost, timeout, any other rejection
deriving DecidableEq, Repr

/-- What the environment does at one driver call. -/
inductive Event
  | quiet                          -- nothing: the statement runs on the table as it is
  | fail                           -- the call returns a driver error (connection lost, timeout, server
                                   -- out of resources), the statement does not run
  | cut (k : Nat)                  -- a multi-row query runs but its cursor breaks after k rows
  | raced (name email : String)    -- another session commits INSERT (name, email) first
deriving DecidableEq, Repr

/-- Statements the program sends, recorded in the order they are issued. -/
inductive Stmt
  | ping (dsn : String)
  | createTable
  | countUsers
  | insertSeeds
  | selectUsers
  | selectIdByEmail (email : String)
  | insertUser (name email : String)
deriving DecidableEq, Repr

/-- The database server as seen through `db`. -/
structure Store where
  users : Option Table     -- `none`: relation `users` does not exist yet
  clock : Time             -- CURRENT_TIMESTAMP
  sched : List Event       -- events of the coming driver calls; exhausted means quiet
  log : List Stmt          -- statements issued so far
deriving DecidableEq, Repr

/-! ## Column type and row insertion -/

/-- True when the string holds the character U+0000, which PostgreSQL stores in
no text value. -/
def hasNul (v : String) : Bool := v.data.any (fun c => c.toNat == 0)

/-- A text value sent for a `VARCHAR(n)` column of a UTF8 database: a value
holding U+0000 is rejected on input; a value longer than `n` characters is an
error unless all excess characters are spaces, in which case it is truncated to
`n` characters. -/
def varchar (n : Nat) (v : String) : Except SqlErr String :=
  if hasNul v then .error .invalidByte
  else if v.length ≤ n then .ok v
  else if (v.data.drop n).all (fun c => c == ' ') then .ok (String.mk (v.data.take n))
  else .error .tooLong

/-- Largest value of `users_id_seq`: `id SERIAL` is a 32-bit integer column. -/
def maxSerial : Nat := 2147483647

/-- Plain `INSERT INTO users (name, email) VALUES (name, email) RETURNING ...`
on the table: both values are taken as `VARCHAR(100)`; `id` takes the next
sequence value, which fails once the sequence has reached `maxSerial` and is
otherwise kept also when the insert is rejected; then the primary key and the
unique constraint on `email` are checked; `created_at` takes its default. -/
def Table.insert (t : Table) (now : Time) (name email : String) : Except SqlErr Row × Table :=
  match varchar 100 name, varchar 100 email with
  | .ok n, .ok e =>
    if maxSerial ≤ t.seq then (.error .sequenceLimit, t)
    else
      let id : Int := ((t.seq + 1 : Nat) : Int)
      let t1 : Table := { t with seq := t.seq + 1 }
      if t.rows.any (fun r => r.id == id) then (.error (.uniqueViolation "users_pkey"), t1)
      else if t.rows.any (fun r => r.email == e) then (.error (.uniqueViolation "users_email_key"), t1)
      else
        let r : Row := { id := id, name := n, email := e, created_at := some now }
        (.ok r, { rows := t.rows ++ [r], seq := t.seq + 1 })
  | .error err, _ => (.error err, t)
  | .ok _, .error err => (.error err, t)

/-- Rows of `INSERT ... ON CONFLICT (email) DO NOTHING`, one value pair at a time:
a pair whose email is already present is skipped, a primary-key collision
aborts the statement.  Returns the rows to commit (or the error) and the
sequence value reached.  The end of the sequence is not part of this
definition: `initDB` issues the statement only on a table that the count found
without rows. -/
def insertDoNothing (now : Time) : List (String × String) → List Row → Nat → Except SqlErr (List Row) × Nat
  | [], rows, seq => (.ok rows, seq)
  | (name, email) :: rest, rows, seq =>
    match varchar 100 name, varchar 100 email with
    | .ok n, .ok e =>
      let id : Int := ((seq + 1 : Nat) : Int)
      if rows.any (fun r => r.email == e) then insertDoNothing now rest rows (seq + 1)
      else if rows.any (fun r => r.id == id) then (.error (.uniqueViolation "users_pkey"), seq + 1)
      else insertDoNothing now rest (rows ++ [{ id := id, name := n, email := e, created_at := some now }]) (seq + 1)
    | .error err, _ => (.error err, seq)
    | .ok _, .error err => (.error err, seq)

/-- The three demo users of `initDB`. -/
def seedUsers : List (String × String) :=
  [("John Doe", "john@example.com"), ("Jane Smith", "jane@example.com"), ("Bob Johnson", "bob@example.com")]

/-- The rows the seeding statement writes into an empty table whose sequence
stands at `seq`. -/
def seedRows (seq : Nat) (now : Time) : List Row :=
  [{ id := ((seq + 1 : Nat) : Int), name := "John Doe", email := "john@example.com", created_at := some now },
   { id := ((seq + 1 + 1 : Nat) : Int), name := "Jane Smith", email := "jane@example.com", created_at := some now },
   { id := ((seq + 1 + 1 + 1 : Nat) : Int), name := "Bob Johnson", email := "bob@example.com", created_at := some now }]

/-- The seeding statement as a whole: it commits all its rows or none; sequence
values it drew are not given back. -/
def Table.insertSeeds (t : Table) (now : Time) : Except SqlErr Unit × Table :=
  match insertDoNothing now seedUsers t.rows t.seq with
  | (.ok rows, seq) => (.ok (), { rows := rows, seq := seq })
  | (.error e, seq) => (.error e, { t with seq := seq })

/-! ## Driver calls -/

/-- The store once statement `st` has been sent: one event of the schedule is
used up and the statement is on the log. -/
def Store.issued (s : Store) (st : Stmt) : Store :=
  { s with sched := s.sched.tail, log := s.log ++ [st] }

/-- Start of every driver call: the statement is logged, the next event of the
schedule is taken, and a concurrent session's insert (if that is the event)
is committed before the statement runs. -/
def Store.begin (s : Store) (st : Stmt) : Event × Store :=
  let ev := s.sched.headD .quiet
  let s1 : Store := s.issued st
  match ev with
  | .raced name email =>
    (ev, { s1 with users := s1.users.map (fun t => (t.insert s1.clock name email).2) })
  | _ => (ev, s1)

/-- True when the event lets a single-result statement run. -/
def Event.runs : Event → Bool
  | .quiet => true
  | .raced _ _ => true
  | .fail => false
  | .cut _ => false

/-- Call `db.Ping()`. -/
def Store.ping (s : Store) (dsn : String) : Except SqlErr Unit × Store :=
  match s.begin (.ping dsn) with
  | (ev, s1) => if ev.runs then (.ok (), s1) else (.error .driver, s1)

/-- Call `db.Exec("CREATE TABLE IF NOT EXISTS users (...)")`. -/
def Store.createTable (s : Store) : Except SqlErr Unit × Store :=
  match s.begin .createTable with
  | (ev, s1) =>
    if ev.runs then
      match s1.users with
      | some _ => (.ok (), s1)
      | none => (.ok (), { s1 with users := some { rows := [], seq := 0 } })
    else (.error .driver, s1)

/-- Call `db.QueryRow("SELECT COUNT(*) FROM users").Scan(&count)`. -/
def Store.countUsers (s : Store) : Except SqlErr Nat × Store :=
  match s.begin .countUsers with
  | (ev, s1) =>
    if ev.runs then
      match s1.users with
      | some t => (.ok t.rows.length, s1)
      | none => (.error .undefinedTable, s1)
    else (.error .driver, s1)

/-- Call `db.Exec("INSERT INTO users (name, email) VALUES ... ON CONFLICT (email) DO NOTHING")`. -/
def Store.insertSeeds (s : Store) : Except SqlErr Unit × Store :=
  match s.begin .insertSeeds with
  | (ev, s1) =>
    if ev.runs then
      match s1.users with
      | some t => ((t.insertSeeds s1.clock).1, { s1 with users := some (t.insertSeeds s1.clock).2 })
      | none => (.error .undefinedTable, s1)
    else (.error .driver, s1)

/-- Call `db.QueryRow("SELECT id FROM users WHERE email = $1", email).Scan(&existingID)`;
the parameter is a text value and is rejected when it holds U+0000. -/
def Store.selectIdByEmail (s : Store) (email : String) : Except SqlErr Int × Store :=
  match s.begin (.selectIdByEmail email) with
  | (ev, s1) =>
    if ev.runs then
      match s1.users with
      | some t =>
        if hasNul email then (.error .invalidByte, s1)
        else
          match t.rows.find? (fun r => r.email == email) with
          | some r => (.ok r.id, s1)
          | none => (.error .noRows, s1)
      | none => (.error .undefinedTable, s1)
    else (.error .driver, s1)

/-- Call `db.QueryRow("INSERT INTO users (name, email) VALUES ($1, $2) RETURNING
id, name, email, created_at", name, email)`, before its `Scan`. -/
def Store.insertUser (s : Store) (name email : String) : Except SqlErr Row × Store :=
  match s.begin (.insertUser name email) with
  | (ev, s1) =>
    if ev.runs then
      match s1.users with
      | some t => ((t.insert s1.clock name email).1, { s1 with users := some (t.insert s1.clock name email).2 })
      | none => (.error .undefinedTable, s1)
    else (.error .driver, s1)

instance : IsTotal Row (fun a b => a.id ≤ b.id) := ⟨fun a b => le_total a.id b.id⟩

instance : IsTrans Row (fun a b => a.id ≤ b.id) := ⟨fun _ _ _ hab hbc => le_trans hab hbc⟩

/-- Result set of `SELECT id, name, email, created_at FROM users ORDER BY id`. -/
def Table.ordered (t : Table) : List Row :=
  t.rows.insertionSort (fun a b => a.id ≤ b.id)

/-- An open cursor (`*sql.Rows`): the rows it will deliver and whether iteration
then ends with an error (`rows.Err() != nil`). -/
structure Rows where
  pending : List Row
  broken : Bool
deriving DecidableEq, Repr

/-- Call `db.Query("SELECT id, name, email, created_at FROM users ORDER BY id")`. -/
def Store.selectUsers (s : Store) : Except SqlErr Rows × Store :=
  match s.begin .selectUsers with
  | (.fail, s1) => (.error .driver, s1)
  | (.cut k, s1) =>
    match s1.users with
    | some t => (.ok { pending := t.ordered.take k, broken := true }, s1)
    | none => (.error .undefinedTable, s1)
  | (_, s1) =>
    match s1.users with
    | some t => (.ok { pending := t.ordered, broken := false }, s1)
    | none => (.error .undefinedTable, s1)

/-- Scan of one result row into a `User` (`Scan(&user.ID, &user.Name,
&user.Email, &user.CreatedAt)`): a NULL `created_at` cannot be stored in a
`time.Time`. -/
def scanUser (r : Row) : Except SqlErr User :=
  match r.created_at with
  | some t => .ok { ID := r.id, Name := r.name, Email := r.email, CreatedAt := t }
  | none => .error .nullScan

/-- The row a user was read from. -/
def User.toRow (u : User) : Row :=
  { id := u.ID, name := u.Name, email := u.Email, created_at := some u.CreatedAt }

/-! ## JSON responses -/

/-- JSON documents written by `c.JSON`.  `time` is a timestamp string in
RFC 3339 form; object fields are kept in the order they are written. -/
inductive Json
  | null
  | num (n : Int)
  | str (s : String)
  | time (t : Time)
  | arr (items : List Json)
  | obj (fields : List (String × Json))

/-- Value of a field of a JSON object, as `response["key"]` in the tests. -/
def Json.field (j : Json) (key : String) : Option Json :=
  match j with
  | .obj fields => (fields.find? (fun kv => kv.1 == key)).map (fun kv => kv.2)
  | _ => none

/-- Encoding of a `User` by its struct tags, fields in declaration order. -/
def User.toJson (u : User) : Json :=
  .obj [("id", .num u.ID), ("name", .str u.Name), ("email", .str u.Email), ("created_at", .time u.CreatedAt)]

/-- A Go slice value `[]User`: `none` is the nil slice of `var users []User`,
`some l` a slice with backing storage. -/
abbrev UserSlice := Option (List User)

/-- Go `append(users, user)`: the result is never nil. -/
def UserSlice.append (users : UserSlice) (user : User) : UserSlice :=
  match users with
  | none => some [user]
  | some l => some (l ++ [user])

/-- Elements of a slice; a nil slice has none. -/
def UserSlice.elems (users : UserSlice) : List User :=
  match users with
  | none => []
  | some l => l

/-- Encoding of a `[]User` by encoding/json: a nil slice is written as `null`,
any other slice as an array. -/
def UserSlice.toJson (users : UserSlice) : Json :=
  match users with
  | none => .null
  | some l => .arr (l.map User.toJson)

/-- An HTTP response: status code and JSON body. -/
structure Response where
  status : Nat
  body : Json

/-- Result of running a handler against the handle `db`. -/
inductive Outcome
  | panic                                        -- nil dereference of `db`; gin.Recovery answers 500
  | done (resp : Response) (db : Option Store)   -- response written, state of the store afterwards

/-- Body `gin.H` with the single key "error". -/
def errorBody (msg : String) : Json := .obj [("error", .str msg)]

/-! ## Request binding -/

/-- What `encoding/json` finds in a request body for `CreateUserRequest`. -/
inductive Body
  | malformed                              -- no JSON object, or a field that is not a string
  | object (name email : Option String)    -- a JSON object; `none` is an absent or null key
deriving DecidableEq, Repr

/-- Binding tag `required` on a string field: the value is not the zero value. -/
def required (v : String) : Bool := v != ""

/-- Call `c.ShouldBindJSON(&req)`: decode, then validate `binding:"required"` on
Name and `binding:"required,email"` on Email.  The check behind the tag `email`
belongs to the validator library and is the parameter `isEmail`. -/
def ShouldBindJSON (isEmail : String → Bool) (body : Body) : Option CreateUserRequest :=
  match body with
  | .malformed => none
  | .object name email =>
    let req : CreateUserRequest := { Name := name.getD "", Email := email.getD "" }
    if required req.Name && (required req.Email && isEmail req.Email) then some req else none

/-! ## Handlers -/

/-- Handler of `GET /health` (the closure in `setupRouter`); `now` is `time.Now().UTC()`. -/
def health (now : Time) (db : Option Store) : Outcome :=
  .done { status := 200,
          body := .obj [("service", .str "web-app"), ("status", .str "healthy"), ("timestamp", .time now)] } db

/-- The loop `for rows.Next() { ... }` of `getUsers`: a row whose Scan fails is
skipped (`continue`), any other is appended. -/
def scanLoop : List Row → UserSlice → UserSlice
  | [], users => users
  | r :: rest, users =>
    match scanUser r with
    | .error _ => scanLoop rest users
    | .ok user => scanLoop rest (users.append user)

/-- Handler `getUsers` of `GET /api/users`. -/
def getUsers (db : Option Store) : Outcome :=
  match db with
  | none => .panic
  | some s =>
    match s.selectUsers with
    | (.error _, s1) => .done { status := 500, body := errorBody "Failed to fetch users" } (some s1)
    | (.ok rows, s1) =>
      let users := scanLoop rows.pending none
      if rows.broken then
        .done { status := 500, body := errorBody "Failed to fetch users" } (some s1)
      else
        .done { status := 200, body := .obj [("users", users.toJson)] } (some s1)

/-- Handler `createUser` of `POST /api/users`. -/
def createUser (isEmail : String → Bool) (body : Body) (db : Option Store) : Outcome :=
  match ShouldBindJSON isEmail body with
  | none => .done { status := 400, body := errorBody "Invalid request body" } db
  | some req =>
    match db with
    | none => .panic
    | some s =>
      match s.selectIdByEmail req.Email with
      | (.ok _, s1) =>
        .done { status := 409, body := errorBody "User with this email already exists" } (some s1)
      | (.error _, s1) =>
        match s1.insertUser req.Name req.Email with
        | (.error _, s2) => .done { status := 500, body := errorBody "Failed to create user" } (some s2)
        | (.ok row, s2) =>
          match scanUser row with
          | .error _ => .done { status := 500, body := errorBody "Failed to create user" } (some s2)
          | .ok user => .done { status := 201, body := .obj [("user", user.toJson)] } (some s2)

/-! ## Configuration and bootstrap -/

/-- The process environment: `none` for a variable that is not set. -/
abbrev Env := String → Option String

/-- Go `os.Getenv`: the value, or the empty string when the variable is not set. -/
def Getenv (env : Env) (key : String) : String := (env key).getD ""

/-- Function `getEnv` of main.go. -/
def getEnv (env : Env) (key defaultValue : String) : String :=
  if Getenv env key != "" then Getenv env key else defaultValue

/-- The connection string `psqlInfo` built by `initDB`. -/
def psqlInfo (env : Env) : String :=
  "host=" ++ getEnv env "DB_HOST" "localhost" ++ " port=" ++ getEnv env "DB_PORT" "5432" ++
  " user=" ++ getEnv env "DB_USER" "postgres" ++ " password=" ++ getEnv env "DB_PASSWORD" "password" ++
  " dbname=" ++ getEnv env "DB_NAME" "webapp" ++ " sslmode=disable"

/-- Function `initDB` of main.go, run against the server the connection string
names: the returned error (`none` is nil) and the store afterwards.  `sql.Open`
only looks up the registered driver and opens no connection, so its error branch
is never taken; the first contact with the server is the ping. -/
def initDB (env : Env) (s : Store) : Option String × Store :=
  match s.ping (psqlInfo env) with
  | (.error _, s1) => (some "error connecting to database", s1)
  | (.ok _, s1) =>
    match s1.createTable with
    | (.error _, s2) => (some "error creating table", s2)
    | (.ok _, s2) =>
      match s2.countUsers with
      | (.error _, s3) => (some "error checking users count", s3)
      | (.ok count, s3) =>
        if count == 0 then
          match s3.insertSeeds with
          | (.error _, s4) => (some "error inserting test data", s4)
          | (.ok _, s4) => (none, s4)
        else (none, s3)

/-! ## Predicates used by the statements -/

/-- The next `n` driver calls meet no event. -/
def quietNext : Nat → List Event → Bool
  | 0, _ => true
  | n + 1, l => l.headD .quiet == .quiet && quietNext n l.tail

/-- Rows currently in the table; none while the relation does not exist. -/
def Store.rows (s : Store) : List Row :=
  match s.users with
  | some t => t.rows
  | none => []

/-- The sequence is not behind any stored id: every id in the table was drawn
from `users_id_seq`. -/
def Table.ahead (t : Table) : Prop := ∀ r ∈ t.rows, r.id ≤ (t.seq : Int)

/-- The same for a store; it holds trivially while the relation does not exist. -/
def Store.ahead (s : Store) : Prop := ∀ t, s.users = some t → t.ahead

/-- An email check that accepts the one address the repository's tests submit
as valid; it fixes `isEmail` where a handler is evaluated on a concrete request. -/
def testEmail (v : String) : Bool := v == "test@example.com"

/-- A store right after a first `initDB`: the three seed rows, nothing scheduled. -/
def seeded : Store :=
  { users := some { rows := [{ id := 1, name := "John Doe", email := "john@example.com", created_at := some 0 },
                             { id := 2, name := "Jane Smith", email := "jane@example.com", created_at := some 0 },
                             { id := 3, name := "Bob Johnson", email := "bob@example.com", created_at := some 0 }],
                    seq := 3 },
    clock := 0, sched := [], log := [] }

/-- A table whose rows are stored out of id order and one of which holds a NULL
`created_at`. -/
def shuffled : Store :=
  { users := some { rows := [{ id := 2, name := "Jane Smith", email := "jane@example.com", created_at := none },
                             { id := 3, name := "Bob Johnson", email := "bob@example.com", created_at := some 5 },
                             { id := 1, name := "John Doe", email := "john@example.com", created_at := some 4 }],
                    seq := 3 },
    clock := 6, sched := [], log := [] }

/-- The user the seeded store creates for the request of the repository's test. -/
def testUser : User := { ID := 4, Name := "Test User", Email := "test@example.com", CreatedAt := 0 }

/-- The seeded store after the request of the repository's test was served. -/
def afterTest : Store :=
  { users := some { rows := seeded.rows ++ [testUser.toRow], seq := 4 },
    clock := 0, sched := [],
    log := [.selectIdByEmail "test@example.com", .insertUser "Test User" "test@example.com"] }

/-- A name of 101 characters, one more than the column `name VARCHAR(100)` holds. -/
def longName : String := String.mk (List.replicate 101 'a')

/-- A name that is the single character U+0000, as the JSON string "\u0000" decodes. -/
def nulName : String := String.mk [Char.ofNat 0]

/-- The seeded store once `users_id_seq` has handed out its last 32-bit value. -/
def exhausted : Store :=
  { users := some { rows := seeded.rows, seq := 2147483647 }, clock := 0, sched := [], log := [] }

/-- The seeded store at a moment when the next driver call loses its connection. -/
def flaky : Store := { seeded with sched := [.fail] }

/-- The seeded store at a moment when another session commits the same email
between the next two driver calls. -/
def racing : Store := { seeded with sched := [.quiet, .raced "Racer" "test@example.com"] }

/-- A server on which `initDB` never ran a statement: no relation `users`. -/
def blank : Store := { users := none, clock := 0, sched := [], log := [] }

/-- Status code the client receives: a panic is turned into 500 by gin.Recovery. -/
def Outcome.status : Outcome → Nat
  | .panic => 500
  | .done resp _ => resp.status

/-- Successful decode of a row, as an option. -/
def decoded (r : Row) : Option User := (scanUser r).toOption

/-! ## Basic facts about the model -/

theorem begin_quiet (s : Store) (st : Stmt) (h : s.sched.headD .quiet = .quiet) :
    s.begin st = (.quiet, s.issued st) := by
  unfold Store.begin
  simp only [h]

theorem selectIdByEmail_quiet (s : Store) (t : Table) (email : String)
    (h : s.sched.headD .quiet = .quiet) (ht : s.users = some t) (hnul : hasNul email = false) :
    s.selectIdByEmail email =
      (match t.rows.find? (fun r => r.email == email) with
        | some r => .ok r.id
        | none => .error .noRows, s.issued (.selectIdByEmail email)) := by
  simp only [Store.selectIdByEmail, begin_quiet s _ h, Event.runs, Store.issued, ht, if_true, hnul,
    Bool.false_eq_true, if_false]
  split <;> rfl

theorem insertUser_quiet (s : Store) (t : Table) (name email : String)
    (h : s.sched.headD .quiet = .quiet) (ht : s.users = some t) :
    s.insertUser name email =
      ((t.insert s.clock name email).1,
       { s.issued (.insertUser name email) with users := some (t.insert s.clock name email).2 }) := by
  simp only [Store.insertUser, begin_quiet s _ h, Event.runs, Store.issued, ht, if_true]

theorem selectUsers_quiet (s : Store) (t : Table)
    (h : s.sched.headD .quiet = .quiet) (ht : s.users = some t) :
    s.selectUsers = (.ok { pending := t.ordered, broken := false }, s.issued .selectUsers) := by
  simp only [Store.selectUsers, begin_quiet s _ h, Store.issued, ht]

theorem quietNext_succ (n : Nat) (l : List Event) :
    quietNext (n + 1) l = true ↔ l.headD .quiet = .quiet ∧ quietNext n l.tail = true := by
  simp [quietNext]

theorem quietNext_mono (n : Nat) : ∀ l : List Event, quietNext (n + 1) l = true → quietNext n l = true := by
  induction n with
  | zero => intro l _; rfl
  | succ k ih =>
    intro l h
    rw [quietNext_succ] at h ⊢
    exact ⟨h.1, ih _ h.2⟩

theorem quietNext_tail (n : Nat) (l : List Event) (h : quietNext (n + 1) l = true) :
    quietNext n l.tail = true :=
  ((quietNext_succ n l).mp h).2

theorem scanLoop_elems : ∀ (rows : List Row) (users : UserSlice),
    (scanLoop rows users).elems = users.elems ++ rows.filterMap decoded := by
  intro rows
  induction rows with
  | nil => intro users; simp [scanLoop]
  | cons r rest ih =>
    intro users
    cases hc : r.created_at with
    | none => simp [scanLoop, scanUser, decoded, hc, ih, Except.toOption]
    | some t =>
      simp only [scanLoop, scanUser, hc]
      rw [ih]
      cases users <;>
        simp [scanUser, decoded, hc, Except.toOption, UserSlice.append, UserSlice.elems]

theorem scanLoop_nil_of_undecodable : ∀ (rows : List Row),
    (∀ r ∈ rows, decoded r = none) → scanLoop rows none = none := by
  intro rows
  induction rows with
  | nil => intro _; rfl
  | cons r rest ih =>
    intro h
    have hr := h r (List.mem_cons_self _ _)
    cases hc : r.created_at with
    | none =>
      simp only [scanLoop, scanUser, hc]
      exact ih (fun x hx => h x (List.mem_cons_of_mem _ hx))
    | some t => simp [decoded, scanUser, hc, Except.toOption] at hr

theorem scanLoop_some : ∀ (rows : List Row) (l : List User),
    scanLoop rows (some l) = some (l ++ rows.filterMap decoded) := by
  intro rows
  induction rows with
  | nil => intro l; simp [scanLoop]
  | cons r rest ih =>
    intro l
    cases hc : r.created_at with
    | none => simp [scanLoop, scanUser, decoded, hc, ih, Except.toOption]
    | some t =>
      simp only [scanLoop, scanUser, hc, UserSlice.append]
      rw [ih]
      simp [scanUser, decoded, hc, Except.toOption]

theorem scanLoop_none : ∀ (rows : List Row),
    scanLoop rows none =
      match rows.filterMap decoded with
      | [] => none
      | u :: us => some (u :: us) := by
  intro rows
  induction rows with
  | nil => rfl
  | cons r rest ih =>
    cases hc : r.created_at with
    | none =>
      simp only [scanLoop, scanUser, hc]
      rw [ih]
      simp [decoded, scanUser, hc, Except.toOption]
    | some t =>
      simp only [scanLoop, scanUser, hc, UserSlice.append]
      rw [scanLoop_some]
      simp [decoded, scanUser, hc, Except.toOption]

theorem decoded_eq :
    decoded = fun r => r.created_at.map
      (fun t => { ID := r.id, Name := r.name, Email := r.email, CreatedAt := t }) := by
  funext r
  cases hc : r.created_at <;> simp [decoded, scanUser, hc, Except.toOption]

theorem decoded_id (r : Row) (u : User) (h : decoded r = some u) : u.ID = r.id := by
  cases hc : r.created_at with
  | none => simp [decoded, scanUser, hc, Except.toOption] at h
  | some t =>
    simp [decoded, scanUser, hc, Except.toOption] at h
    rw [← h]

theorem sorted_filterMap_decoded : ∀ (rows : List Row),
    rows.Sorted (fun a b => a.id ≤ b.id) →
    (rows.filterMap decoded).Sorted (fun a b => a.ID ≤ b.ID) := by
  intro rows
  induction rows with
  | nil => intro _; simp
  | cons r rest ih =>
    intro h
    rw [List.sorted_cons] at h
    cases hd : decoded r with
    | none => simpa [List.filterMap_cons, hd] using ih h.2
    | some u =>
      rw [List.filterMap_cons, hd]
      refine List.sorted_cons.mpr ⟨?_, ih h.2⟩
      intro v hv
      rcases List.mem_filterMap.mp hv with ⟨x, hx, hxv⟩
      rw [decoded_id r u hd, decoded_id x v hxv]
      exact h.1 x hx

theorem ordered_sorted (t : Table) : t.ordered.Sorted (fun a b => a.id ≤ b.id) :=
  List.sorted_insertionSort _ _

theorem selectUsers_sorted (s : Store) (rows : Rows) (h : s.selectUsers.1 = .ok rows) :
    rows.pending.Sorted (fun a b => a.id ≤ b.id) := by
  unfold Store.selectUsers at h
  split at h
  · simp at h
  · split at h
    · simp at h
      rw [← h]
      exact (ordered_sorted _).sublist (List.take_sublist _ _)
    · simp at h
  · split at h
    · simp at h
      rw [← h]
      exact ordered_sorted _
    · simp at h

theorem ShouldBindJSON_eq_some (isEmail : String → Bool) (body : Body) (req : CreateUserRequest)
    (h : ShouldBindJSON isEmail body = some req) :
    body = .object (some req.Name) (some req.Email) ∧ req.Name ≠ "" ∧ req.Email ≠ "" ∧
      isEmail req.Email = true := by
  cases body with
  | malformed => simp [ShouldBindJSON] at h
  | object name email =>
    simp only [ShouldBindJSON] at h
    split at h
    · rename_i hv
      simp only [Option.some.injEq] at h
      subst h
      simp only [required, Bool.and_eq_true, bne_iff_ne, ne_eq] at hv
      obtain ⟨hn, he, hm⟩ := hv
      cases name with
      | none => simp at hn
      | some n =>
        cases email with
        | none => simp at he
        | some e => exact ⟨rfl, hn, he, hm⟩
    · simp at h

theorem ShouldBindJSON_eq_none_iff (isEmail : String → Bool) (body : Body) :
    ShouldBindJSON isEmail body = none ↔
      body = .malformed ∨ ∃ name email, body = .object name email ∧
        (name.getD "" = "" ∨ email.getD "" = "" ∨ isEmail (email.getD "") = false) := by
  cases body with
  | malformed => simp [ShouldBindJSON]
  | object name email =>
    have key : ShouldBindJSON isEmail (.object name email) = none ↔
        (name.getD "" = "" ∨ email.getD "" = "" ∨ isEmail (email.getD "") = false) := by
      simp only [ShouldBindJSON, required]
      by_cases hn : name.getD "" = "" <;> by_cases he : email.getD "" = "" <;>
        cases hm : isEmail (email.getD "") <;> simp [hn, he, hm]
    rw [key]
    constructor
    · intro h
      exact Or.inr ⟨name, email, rfl, h⟩
    · rintro (h | ⟨n, e, hb, h⟩)
      · cases h
      · cases hb
        exact h

theorem varchar_of_le (n : Nat) (v : String) (hnul : hasNul v = false) (h : v.length ≤ n) :
    varchar n v = .ok v := by
  simp [varchar, hnul, h]

theorem varchar_ok_noNul (n : Nat) (v w : String) (h : varchar n v = .ok w) : hasNul v = false := by
  cases hv : hasNul v with
  | false => rfl
  | true => simp [varchar, hv] at h

theorem insert_fresh (t : Table) (now : Time) (name email : String)
    (hnulN : hasNul name = false) (hnulE : hasNul email = false)
    (hname : name.length ≤ 100) (hemail : email.length ≤ 100)
    (hmax : t.seq < maxSerial)
    (hfree : ∀ r ∈ t.rows, r.email ≠ email) (hseq : ∀ r ∈ t.rows, r.id ≤ t.seq) :
    t.insert now name email =
      (.ok { id := ((t.seq + 1 : Nat) : Int), name := name, email := email, created_at := some now },
       { rows := t.rows ++ [{ id := ((t.seq + 1 : Nat) : Int), name := name, email := email,
                              created_at := some now }],
         seq := t.seq + 1 }) := by
  have h0 : ¬ maxSerial ≤ t.seq := Nat.not_le.mpr hmax
  have h1 : t.rows.any (fun r => r.id == ((t.seq + 1 : Nat) : Int)) = false := by
    rw [List.any_eq_false]
    intro r hr
    have := hseq r hr
    simp only [beq_iff_eq]
    omega
  have h2 : t.rows.any (fun r => r.email == email) = false := by
    rw [List.any_eq_false]
    intro r hr
    simpa using hfree r hr
  simp only [Table.insert, varchar_of_le 100 name hnulN hname, varchar_of_le 100 email hnulE hemail,
    h0, h1, h2, if_false, Bool.false_eq_true]

theorem decoded_email (r : Row) (u : User) (h : decoded r = some u) : u.Email = r.email := by
  cases hc : r.created_at with
  | none => simp [decoded, scanUser, hc, Except.toOption] at h
  | some t =>
    simp [decoded, scanUser, hc, Except.toOption] at h
    rw [← h]

theorem decoded_toRow (u : User) : decoded u.toRow = some u := rfl

theorem toJson_injective (u v : User) (h : u.toJson = v.toJson) : u = v := by
  cases u
  cases v
  simpa [User.toJson] using h

theorem insert_ok_inv (t : Table) (now : Time) (name email : String) (row : Row)
    (h : (t.insert now name email).1 = .ok row) :
    (t.insert now name email).2 = { rows := t.rows ++ [row], seq := t.seq + 1 } ∧
      (∀ r ∈ t.rows, r.email ≠ row.email) ∧ (∀ r ∈ t.rows, r.id ≠ row.id) ∧
      row.created_at = some now ∧ row.id = ((t.seq + 1 : Nat) : Int) ∧
      varchar 100 name = .ok row.name ∧ varchar 100 email = .ok row.email ∧
      hasNul name = false ∧ hasNul email = false ∧ t.seq < maxSerial := by
  cases hn : varchar 100 name with
  | error x => simp [Table.insert, hn] at h
  | ok n =>
    cases he : varchar 100 email with
    | error x => simp [Table.insert, hn, he] at h
    | ok e =>
      have hnN := varchar_ok_noNul 100 name n hn
      have hnE := varchar_ok_noNul 100 email e he
      by_cases h0 : maxSerial ≤ t.seq
      · simp [Table.insert, hn, he, h0] at h
      · cases h1 : t.rows.any (fun r => r.id == ((t.seq + 1 : Nat) : Int)) with
        | true =>
          simp only [Table.insert, hn, he, h0, h1, if_true, if_false] at h
          cases h
        | false =>
          cases h2 : t.rows.any (fun r => r.email == e) with
          | true =>
            simp only [Table.insert, hn, he, h0, h1, h2, if_true, Bool.false_eq_true, if_false] at h
            cases h
          | false =>
            simp only [Table.insert, hn, he, h0, h1, h2, Bool.false_eq_true, if_false,
              Except.ok.injEq] at h ⊢
            subst h
            rw [List.any_eq_false] at h1 h2
            refine ⟨rfl, ?_, ?_, rfl, rfl, rfl, rfl, hnN, hnE, Nat.not_le.mp h0⟩
            · intro r hr
              simpa using h2 r hr
            · intro r hr
              simpa using h1 r hr

theorem createUser_201_inv (isEmail : String → Bool) (body : Body) (s s1 : Store) (user : User)
    (h : createUser isEmail body (some s) =
      .done { status := 201, body := .obj [("user", user.toJson)] } (some s1)) :
    ∃ (req : CreateUserRequest) (t0 : Table), ShouldBindJSON isEmail body = some req ∧
      hasNul req.Email = false ∧
      s1.users = some { rows := t0.rows ++ [user.toRow], seq := t0.seq + 1 } ∧
      (∀ r ∈ t0.rows, r.email ≠ user.Email) := by
  unfold createUser at h
  split at h
  · simp at h
  · rename_i req hreq
    simp only at h
    split at h
    · simp at h
    · rename_i e sA _
      split at h
      · simp at h
      · rename_i row sB hB
        split at h
        · simp at h
        · rename_i u hu
          simp only [Outcome.done.injEq, Response.mk.injEq, true_and, Json.obj.injEq, List.cons.injEq,
            Prod.mk.injEq, and_true, Option.some.injEq] at h
          obtain ⟨hj, hs⟩ := h
          have huu := toJson_injective _ _ hj
          subst huu
          subst hs
          unfold Store.insertUser at hB
          split at hB
          rename_i ev sC _
          split at hB
          · split at hB
            · rename_i t ht
              simp only [Prod.mk.injEq] at hB
              obtain ⟨hrow, hst⟩ := hB
              obtain ⟨htab, hfree, _, hca, _, _, _, _, hnE, _⟩ := insert_ok_inv t sC.clock _ _ row hrow
              have hr : row = u.toRow := by
                cases hc : row.created_at with
                | none => simp [scanUser, hc] at hu
                | some c =>
                  simp only [scanUser, hc, Except.ok.injEq] at hu
                  subst hu
                  cases row
                  simp only at hc
                  simp [User.toRow, hc]
              refine ⟨req, t, hreq, hnE, ?_, ?_⟩
              · rw [← hst]
                simp only [htab, hr]
              · intro r hr2
                have := hfree r hr2
                rw [hr] at this
                exact this
            · simp at hB
          · simp at hB

theorem ping_quiet (s : Store) (dsn : String) (h : s.sched.headD .quiet = .quiet) :
    s.ping dsn = (.ok (), s.issued (.ping dsn)) := by
  simp only [Store.ping, begin_quiet s _ h, Event.runs, if_true]

theorem createTable_quiet (s : Store) (h : s.sched.headD .quiet = .quiet) :
    s.createTable =
      (.ok (), { s.issued .createTable with users := some (s.users.getD { rows := [], seq := 0 }) }) := by
  simp only [Store.createTable, begin_quiet s _ h, Event.runs, if_true, Store.issued]
  cases s.users <;> rfl

theorem countUsers_quiet (s : Store) (t : Table) (h : s.sched.headD .quiet = .quiet)
    (ht : s.users = some t) :
    s.countUsers = (.ok t.rows.length, s.issued .countUsers) := by
  simp only [Store.countUsers, begin_quiet s _ h, Event.runs, if_true, Store.issued, ht]

theorem insertSeeds_quiet (s : Store) (t : Table) (h : s.sched.headD .quiet = .quiet)
    (ht : s.users = some t) :
    s.insertSeeds =
      ((t.insertSeeds s.clock).1, { s.issued .insertSeeds with users := some (t.insertSeeds s.clock).2 }) := by
  simp only [Store.insertSeeds, begin_quiet s _ h, Event.runs, if_true, Store.issued, ht]

theorem insertSeeds_empty (seq : Nat) (now : Time) :
    Table.insertSeeds { rows := [], seq := seq } now =
      (.ok (), { rows := seedRows seq now, seq := seq + 3 }) := by
  have hJohnN : varchar 100 "John Doe" = .ok "John Doe" := rfl
  have hJohnE : varchar 100 "john@example.com" = .ok "john@example.com" := rfl
  have hJaneN : varchar 100 "Jane Smith" = .ok "Jane Smith" := rfl
  have hJaneE : varchar 100 "jane@example.com" = .ok "jane@example.com" := rfl
  have hBobN : varchar 100 "Bob Johnson" = .ok "Bob Johnson" := rfl
  have hBobE : varchar 100 "bob@example.com" = .ok "bob@example.com" := rfl
  have e1 : ("john@example.com" == "jane@example.com") = false := by decide
  have e2 : ("john@example.com" == "bob@example.com") = false := by decide
  have e3 : ("jane@example.com" == "bob@example.com") = false := by decide
  have i1 : (((seq + 1 : Nat) : Int) == ((seq + 1 + 1 : Nat) : Int)) = false := by
    rw [beq_eq_false_iff_ne]
    omega
  have i2 : (((seq + 1 : Nat) : Int) == ((seq + 1 + 1 + 1 : Nat) : Int)) = false := by
    rw [beq_eq_false_iff_ne]
    omega
  have i3 : (((seq + 1 + 1 : Nat) : Int) == ((seq + 1 + 1 + 1 : Nat) : Int)) = false := by
    rw [beq_eq_false_iff_ne]
    omega
  simp only [Table.insertSeeds, seedUsers, insertDoNothing, hJohnN, hJohnE, hJaneN, hJaneE, hBobN, hBobE,
    List.any_nil, List.any_cons, List.nil_append, List.cons_append, e1, e2, e3, i1, i2, i3, Bool.or_false,
    Bool.false_eq_true, if_false, seedRows]

theorem initDB_quiet_nonempty (env : Env) (s : Store) (t : Table) (hq : quietNext 3 s.sched = true)
    (ht : s.users = some t) (hne : t.rows ≠ []) :
    initDB env s =
      (none, ((s.issued (.ping (psqlInfo env))).issued .createTable).issued .countUsers) := by
  rw [quietNext_succ, quietNext_succ, quietNext_succ] at hq
  obtain ⟨hq1, hq2, hq3, _⟩ := hq
  have hlen : (t.rows.length == 0) = false := by
    cases hr : t.rows with
    | nil => exact absurd hr hne
    | cons a l => rfl
  have hc : (s.issued (.ping (psqlInfo env))).createTable =
      (.ok (), (s.issued (.ping (psqlInfo env))).issued .createTable) := by
    rw [createTable_quiet _ hq2]
    simp [Store.issued, ht]
  have hn : ((s.issued (.ping (psqlInfo env))).issued .createTable).countUsers =
      (.ok t.rows.length, ((s.issued (.ping (psqlInfo env))).issued .createTable).issued .countUsers) :=
    countUsers_quiet _ t hq3 ht
  simp only [initDB, ping_quiet s _ hq1, hc, hn, hlen, Bool.false_eq_true, if_false]

theorem initDB_quiet_empty (env : Env) (s : Store) (hq : quietNext 4 s.sched = true)
    (he : s.rows = []) :
    initDB env s =
      (none, { users := some { rows := seedRows (s.users.getD { rows := [], seq := 0 }).seq s.clock,
                               seq := (s.users.getD { rows := [], seq := 0 }).seq + 3 },
               clock := s.clock, sched := s.sched.tail.tail.tail.tail,
               log := s.log ++ [.ping (psqlInfo env), .createTable, .countUsers, .insertSeeds] }) := by
  rw [quietNext_succ, quietNext_succ, quietNext_succ, quietNext_succ] at hq
  obtain ⟨hq1, hq2, hq3, hq4, _⟩ := hq
  have hrows : (s.users.getD { rows := [], seq := 0 }).rows = [] := by
    cases hu : s.users with
    | none => rfl
    | some t => simpa [Store.rows, hu] using he
  obtain ⟨seq0, h0⟩ : ∃ seq0, s.users.getD { rows := [], seq := 0 } = { rows := [], seq := seq0 } := by
    cases hg : s.users.getD { rows := [], seq := 0 } with
    | mk rows seq =>
      rw [hg] at hrows
      simp only at hrows
      exact ⟨seq, by rw [hrows]⟩
  have hc := createTable_quiet (s.issued (.ping (psqlInfo env))) hq2
  have hn := countUsers_quiet
    { (s.issued (.ping (psqlInfo env))).issued .createTable with
      users := some { rows := [], seq := seq0 } }
    { rows := [], seq := seq0 } hq3 rfl
  have hi := insertSeeds_quiet
    ({ (s.issued (.ping (psqlInfo env))).issued .createTable with
      users := some { rows := [], seq := seq0 } }.issued .countUsers)
    { rows := [], seq := seq0 } hq4 rfl
  rw [insertSeeds_empty] at hi
  simp only [Store.issued, h0] at hc hn hi
  simp only [initDB, ping_quiet s _ hq1, Store.issued, hc, hn, h0, List.length_nil, beq_self_eq_true,
    if_true, hi]
  simp

/-! ## The sequence stays ahead of the table -/

theorem insert_ahead (t : Table) (now : Time) (name email : String) (h : t.ahead) :
    (t.insert now name email).2.ahead := by
  have hstep : ∀ r ∈ t.rows, r.id ≤ ((t.seq + 1 : Nat) : Int) := by
    intro r hr
    have := h r hr
    omega
  cases hn : varchar 100 name with
  | error x =>
    simp only [Table.insert, hn]
    exact h
  | ok n =>
    cases he : varchar 100 email with
    | error x =>
      simp only [Table.insert, hn, he]
      exact h
    | ok e =>
      by_cases h0 : maxSerial ≤ t.seq
      · simp only [Table.insert, hn, he, h0, if_true]
        exact h
      · cases h1 : t.rows.any (fun r => r.id == ((t.seq + 1 : Nat) : Int)) with
        | true =>
          simp only [Table.insert, hn, he, h0, h1, if_true, if_false]
          exact hstep
        | false =>
          cases h2 : t.rows.any (fun r => r.email == e) with
          | true =>
            simp only [Table.insert, hn, he, h0, h1, h2, if_true, Bool.false_eq_true, if_false]
            exact hstep
          | false =>
            simp only [Table.insert, hn, he, h0, h1, h2, Bool.false_eq_true, if_false]
            intro r hr
            simp only [List.mem_append, List.mem_singleton] at hr
            rcases hr with hr | hr
            · exact hstep r hr
            · subst hr
              exact le_refl _

theorem insertDoNothing_ahead (now : Time) : ∀ (seeds : List (String × String)) (rows : List Row)
    (seq : Nat), (∀ r ∈ rows, r.id ≤ (seq : Int)) →
    seq ≤ (insertDoNothing now seeds rows seq).2 ∧
      ∀ rows1, (insertDoNothing now seeds rows seq).1 = .ok rows1 →
        ∀ r ∈ rows1, r.id ≤ ((insertDoNothing now seeds rows seq).2 : Int) := by
  intro seeds
  induction seeds with
  | nil =>
    intro rows seq h
    refine ⟨le_refl _, ?_⟩
    intro rows1 h1 r hr
    simp only [insertDoNothing, Except.ok.injEq] at h1
    subst h1
    exact h r hr
  | cons p rest ih =>
    intro rows seq h
    obtain ⟨name, email⟩ := p
    have hstep : ∀ r ∈ rows, r.id ≤ ((seq + 1 : Nat) : Int) := by
      intro r hr
      have := h r hr
      omega
    cases hn : varchar 100 name with
    | error x =>
      simp only [insertDoNothing, hn]
      exact ⟨le_refl _, fun rows1 h1 => by cases h1⟩
    | ok n =>
      cases he : varchar 100 email with
      | error x =>
        simp only [insertDoNothing, hn, he]
        exact ⟨le_refl _, fun rows1 h1 => by cases h1⟩
      | ok e =>
        cases h1 : rows.any (fun r => r.email == e) with
        | true =>
          simp only [insertDoNothing, hn, he, h1, if_true]
          obtain ⟨k1, k2⟩ := ih rows (seq + 1) hstep
          exact ⟨by omega, k2⟩
        | false =>
          cases h2 : rows.any (fun r => r.id == ((seq + 1 : Nat) : Int)) with
          | true =>
            simp only [insertDoNothing, hn, he, h1, h2, if_true, Bool.false_eq_true, if_false]
            exact ⟨by omega, fun rows1 h1 => by cases h1⟩
          | false =>
            simp only [insertDoNothing, hn, he, h1, h2, Bool.false_eq_true, if_false]
            have hnew : ∀ r ∈ rows ++ [Row.mk ((seq + 1 : Nat) : Int) n e (some now)],
                r.id ≤ ((seq + 1 : Nat) : Int) := by
              intro r hr
              simp only [List.mem_append, List.mem_singleton] at hr
              rcases hr with hr | hr
              · exact hstep r hr
              · subst hr
                exact le_refl _
            obtain ⟨k1, k2⟩ := ih _ (seq + 1) hnew
            exact ⟨by omega, k2⟩

theorem insertSeeds_ahead (t : Table) (now : Time) (h : t.ahead) : (t.insertSeeds now).2.ahead := by
  obtain ⟨h1, h2⟩ := insertDoNothing_ahead now seedUsers t.rows t.seq h
  unfold Table.insertSeeds
  split
  · rename_i rows seq heq
    rw [heq] at h2
    exact h2 rows rfl
  · rename_i e seq heq
    rw [heq] at h1
    intro r hr
    have := h r hr
    simp only at h1 hr ⊢
    omega

theorem begin_ahead (s : Store) (st : Stmt) (h : s.ahead) : (s.begin st).2.ahead := by
  cases hev : s.sched.headD .quiet with
  | raced name email =>
    simp only [Store.begin, hev]
    intro t ht
    cases hu : s.users with
    | none => simp [Store.issued, hu] at ht
    | some t0 =>
      simp only [Store.issued, hu, Option.map_some', Option.some.injEq] at ht
      subst ht
      exact insert_ahead t0 _ _ _ (h t0 hu)
  | quiet =>
    simp only [Store.begin, hev]
    exact h
  | fail =>
    simp only [Store.begin, hev]
    exact h
  | cut k =>
    simp only [Store.begin, hev]
    exact h

theorem selectIdByEmail_ahead (s : Store) (email : String) (h : s.ahead) :
    (s.selectIdByEmail email).2.ahead := by
  have hb := begin_ahead s (.selectIdByEmail email) h
  unfold Store.selectIdByEmail
  split
  rename_i ev s1 heq
  rw [heq] at hb
  split
  · split
    · split
      · exact hb
      · split <;> exact hb
    · exact hb
  · exact hb

theorem insertUser_ahead (s : Store) (name email : String) (h : s.ahead) :
    (s.insertUser name email).2.ahead := by
  have hb := begin_ahead s (.insertUser name email) h
  unfold Store.insertUser
  split
  rename_i ev s1 heq
  rw [heq] at hb
  split
  · split
    · rename_i t ht
      intro t1 ht1
      simp only [Option.some.injEq] at ht1
      subst ht1
      exact insert_ahead t _ _ _ (hb t ht)
    · exact hb
  · exact hb

/-- Whatever the schedule, `createUser` hands back a store whose sequence is
still ahead of the table. -/
theorem createUser_ahead (isEmail : String → Bool) (body : Body) (s : Store) (resp : Response)
    (db1 : Option Store) (h : s.ahead)
    (hrun : createUser isEmail body (some s) = .done resp db1) :
    ∃ s1, db1 = some s1 ∧ s1.ahead := by
  have hA := selectIdByEmail_ahead s
  unfold createUser at hrun
  split at hrun
  · simp only [Outcome.done.injEq] at hrun
    exact ⟨s, hrun.2.symm, h⟩
  · rename_i req _
    simp only at hrun
    have hA := selectIdByEmail_ahead s req.Email h
    split at hrun
    · rename_i x sA heq
      rw [heq] at hA
      simp only [Outcome.done.injEq] at hrun
      exact ⟨sA, hrun.2.symm, hA⟩
    · rename_i e sA heq
      rw [heq] at hA
      have hB := insertUser_ahead sA req.Name req.Email hA
      split at hrun
      · rename_i e2 sB heq2
        rw [heq2] at hB
        simp only [Outcome.done.injEq] at hrun
        exact ⟨sB, hrun.2.symm, hB⟩
      · rename_i row sB heq2
        rw [heq2] at hB
        split at hrun <;>
          · simp only [Outcome.done.injEq] at hrun
            exact ⟨sB, hrun.2.symm, hB⟩

theorem ping_ahead (s : Store) (dsn : String) (h : s.ahead) : (s.ping dsn).2.ahead := by
  have hb := begin_ahead s (.ping dsn) h
  unfold Store.ping
  split
  rename_i ev s1 heq
  rw [heq] at hb
  split <;> exact hb

theorem createTable_ahead (s : Store) (h : s.ahead) : s.createTable.2.ahead := by
  have hb := begin_ahead s .createTable h
  unfold Store.createTable
  split
  rename_i ev s1 heq
  rw [heq] at hb
  split
  · split
    · exact hb
    · intro t ht
      simp only [Option.some.injEq] at ht
      subst ht
      intro r hr
      simp at hr
  · exact hb

theorem countUsers_ahead (s : Store) (h : s.ahead) : s.countUsers.2.ahead := by
  have hb := begin_ahead s .countUsers h
  unfold Store.countUsers
  split
  rename_i ev s1 heq
  rw [heq] at hb
  split
  · split <;> exact hb
  · exact hb

theorem storeInsertSeeds_ahead (s : Store) (h : s.ahead) : s.insertSeeds.2.ahead := by
  have hb := begin_ahead s .insertSeeds h
  unfold Store.insertSeeds
  split
  rename_i ev s1 heq
  rw [heq] at hb
  split
  · split
    · rename_i t ht
      intro t1 ht1
      simp only [Option.some.injEq] at ht1
      subst ht1
      exact insertSeeds_ahead t _ (hb t ht)
    · exact hb
  · exact hb

/-- Whatever the schedule, `initDB` leaves a store whose sequence is ahead of the
table; a server without the relation is such a store to begin with. -/
theorem initDB_ahead (env : Env) (s : Store) (h : s.ahead) : (initDB env s).2.ahead := by
  have h1 := ping_ahead s (psqlInfo env) h
  unfold initDB
  split
  · rename_i e s1 heq
    rw [heq] at h1
    exact h1
  · rename_i u s1 heq
    rw [heq] at h1
    have h2 := createTable_ahead s1 h1
    split
    · rename_i e s2 heq2
      rw [heq2] at h2
      exact h2
    · rename_i u2 s2 heq2
      rw [heq2] at h2
      have h3 := countUsers_ahead s2 h2
      split
      · rename_i e s3 heq3
        rw [heq3] at h3
        exact h3
      · rename_i count s3 heq3
        rw [heq3] at h3
        have h4 := storeInsertSeeds_ahead s3 h3
        split
        · split
          · rename_i e s4 heq4
            rw [heq4] at h4
            exact h4
          · rename_i u4 s4 heq4
            rw [heq4] at h4
            exact h4
        · exact h3

theorem blank_ahead : blank.ahead := by
  intro t ht
  cases ht

/-! ## Failure paths of the handlers -/

theorem createUser_insert_error_500 (isEmail : String → Bool) (body : Body)
    (req : CreateUserRequest) (s : Store) (e1 e2 : SqlErr)
    (hvalid : ShouldBindJSON isEmail body = some req)
    (hpre : (s.selectIdByEmail req.Email).1 = .error e1)
    (hins : ((s.selectIdByEmail req.Email).2.insertUser req.Name req.Email).1 = .error e2) :
    createUser isEmail body (some s) =
      .done { status := 500, body := errorBody "Failed to create user" }
        (some ((s.selectIdByEmail req.Email).2.insertUser req.Name req.Email).2) := by
  rcases hA : s.selectIdByEmail req.Email with ⟨resA, sA⟩
  rw [hA] at hpre hins
  simp only at hpre hins
  rcases hB : sA.insertUser req.Name req.Email with ⟨resB, sB⟩
  rw [hB] at hins
  simp only at hins
  subst hpre
  subst hins
  simp [createUser, hvalid, hA, hB]

theorem getUsers_null_of_undecodable (s : Store) (t : Table)
    (hq : s.sched.headD .quiet = .quiet) (ht : s.users = some t)
    (hbad : ∀ r ∈ t.rows, r.created_at = none) :
    getUsers (some s) =
      .done { status := 200, body := .obj [("users", .null)] } (some (s.issued .selectUsers)) := by
  have hnil : scanLoop t.ordered none = none := by
    apply scanLoop_nil_of_undecodable
    intro r hr
    have hr2 : r ∈ t.rows := (List.mem_insertionSort _).mp hr
    simp [decoded, scanUser, hbad r hr2, Except.toOption]
  simp only [getUsers, selectUsers_quiet s t hq ht, hnil]
  simp [UserSlice.toJson]

/-! ## Configuration: `getEnv` -/

/-- C10: `getEnv key default` returns the variable's value when it is set to a
non-empty string, returns `default` when the variable is unset and likewise when
it is set to the empty string, and returns the empty string only if `default`
is empty. -/
theorem getEnv_value_or_default (env : Env) (key defaultValue : String) :
    (∀ v, env key = some v → v ≠ "" → getEnv env key defaultValue = v) ∧
    (env key = none → getEnv env key defaultValue = defaultValue) ∧
    (env key = some "" → getEnv env key defaultValue = defaultValue) ∧
    (getEnv env key defaultValue = "" → defaultValue = "") := by
  refine ⟨?_, ?_, ?_, ?_⟩
  · intro v hv hne
    simp [getEnv, Getenv, hv, hne]
  · intro hv
    simp [getEnv, Getenv, hv]
  · intro hv
    simp [getEnv, Getenv, hv]
  · intro h
    unfold getEnv at h
    split at h
    · rename_i hne
      simp [h] at hne
    · exact h

theorem getEnv_value_or_default_witness :
    getEnv (fun k => if k = "PORT" then some "9090" else if k = "DB_HOST" then some "" else none)
        "PORT" "8080" = "9090" ∧
    getEnv (fun k => if k = "PORT" then some "9090" else if k = "DB_HOST" then some "" else none)
        "NON_EXISTENT_VAR" "default_value" = "default_value" ∧
    getEnv (fun k => if k = "PORT" then some "9090" else if k = "DB_HOST" then some "" else none)
        "DB_HOST" "localhost" = "localhost" :=
  ⟨(getEnv_value_or_default _ "PORT" "8080").1 "9090" (by decide) (by decide),
   (getEnv_value_or_default _ "NON_EXISTENT_VAR" "default_value").2.1 (by decide),
   (getEnv_value_or_default _ "DB_HOST" "localhost").2.2.1 (by decide)⟩

/-! ## Health -/

/-- C9: for every state of the handle `db` (a store in any state, with any
schedule of failures, or no store at all) the health handler answers 200 with
status "healthy" and service "web-app", and hands the store back untouched: no
statement is issued. -/
theorem health_always_healthy (now : Time) (db : Option Store) :
    ∃ body, health now db = .done { status := 200, body := body } db ∧
      body.field "status" = some (.str "healthy") ∧
      body.field "service" = some (.str "web-app") :=
  ⟨_, rfl, rfl, rfl⟩

/-! ## Listing -/

/-- C7: whenever the users query returns a cursor whose iteration ends without
error, `getUsers` answers 200 and the field "users" of the body holds, one JSON
object each and in the order the store delivered them, exactly the rows that
decode (those whose `created_at` is not NULL); that order is ascending id.  Rows
that fail to decode are dropped without changing the status; when no row
decodes the field is written as `null`. -/
theorem getUsers_lists_decodable_rows (s : Store) (rows : List Row)
    (h : s.selectUsers.1 = .ok { pending := rows, broken := false }) :
    getUsers (some s) =
        .done { status := 200,
                body := .obj [("users",
                  match rows.filterMap (fun r => r.created_at.map
                      (fun t => User.mk r.id r.name r.email t)) with
                  | [] => .null
                  | u :: us => .arr ((u :: us).map (fun v =>
                      .obj [("id", .num v.ID), ("name", .str v.Name), ("email", .str v.Email),
                            ("created_at", .time v.CreatedAt)])))] }
          (some s.selectUsers.2) ∧
      rows.Sorted (fun a b => a.id ≤ b.id) ∧
      (rows.filterMap (fun r => r.created_at.map
        (fun t => User.mk r.id r.name r.email t))).Sorted (fun a b => a.ID ≤ b.ID) := by
  have hs := selectUsers_sorted s _ h
  have hsort := sorted_filterMap_decoded rows hs
  rw [decoded_eq] at hsort
  refine ⟨?_, hs, hsort⟩
  rcases hq : s.selectUsers with ⟨res, s1⟩
  rw [hq] at h
  simp only at h
  subst h
  simp only [getUsers, hq, Bool.false_eq_true, if_false, scanLoop_none, decoded_eq]
  cases rows.filterMap (fun r => r.created_at.map (fun t => User.mk r.id r.name r.email t)) with
  | nil => rfl
  | cons u us => rfl

theorem getUsers_lists_decodable_rows_witness :
    getUsers (some shuffled) =
      .done { status := 200,
              body := .obj [("users", .arr [
                .obj [("id", .num 1), ("name", .str "John Doe"), ("email", .str "john@example.com"),
                      ("created_at", .time 4)],
                .obj [("id", .num 3), ("name", .str "Bob Johnson"), ("email", .str "bob@example.com"),
                      ("created_at", .time 5)]])] }
        (some { shuffled with log := [.selectUsers] }) :=
  (getUsers_lists_decodable_rows shuffled
    [{ id := 1, name := "John Doe", email := "john@example.com", created_at := some 4 },
     { id := 2, name := "Jane Smith", email := "jane@example.com", created_at := none },
     { id := 3, name := "Bob Johnson", email := "bob@example.com", created_at := some 5 }]
    rfl).1

/-- C5, the code at an empty table: the query succeeds with no rows, the slice
`users` is still nil when it is encoded, and the body is `{"users": null}`,
which is not the empty list. -/
theorem getUsers_empty_table_null :
    getUsers (some { users := some { rows := [], seq := 0 }, clock := 0, sched := [], log := [] }) =
      .done { status := 200, body := .obj [("users", .null)] }
        (some { users := some { rows := [], seq := 0 }, clock := 0, sched := [], log := [.selectUsers] }) ∧
    Json.null ≠ Json.arr [] :=
  ⟨rfl, by simp⟩

/-! ## Creation -/

/-- C4: every body that fails binding (undecodable, name missing or empty, email
missing, empty or not a valid email) is answered 400 with the one fixed body
`{"error": "Invalid request body"}`, and the handle `db` is handed back exactly
as it was: no statement is issued and the table is unchanged. -/
theorem createUser_invalid_400 (isEmail : String → Bool) (body : Body) (db : Option Store)
    (hbad : ShouldBindJSON isEmail body = none) :
    createUser isEmail body db =
      .done { status := 400, body := errorBody "Invalid request body" } db := by
  simp [createUser, hbad]

theorem createUser_invalid_400_witness :
    createUser testEmail (.object (some "") (some "invalid-email")) (some seeded) =
      .done { status := 400, body := errorBody "Invalid request body" } (some seeded) :=
  createUser_invalid_400 testEmail (.object (some "") (some "invalid-email")) (some seeded) (by decide)

/-- C1 as stated fails: a body with a name of 101 characters passes validation,
its email is held by no row, the store runs undisturbed, and the answer is 500.
The same happens for a name that is the character U+0000, and for any valid
body once the id sequence has reached its 32-bit end. -/
theorem createUser_long_name_500 :
    ShouldBindJSON testEmail (.object (some longName) (some "test@example.com")) =
      some { Name := longName, Email := "test@example.com" } ∧
    (∀ r ∈ seeded.rows, r.email ≠ "test@example.com") ∧
    (createUser testEmail (.object (some longName) (some "test@example.com")) (some seeded)).status = 500 ∧
    (createUser testEmail (.object (some longName) (some "test@example.com")) (some seeded)).status ≠ 201 ∧
    ShouldBindJSON testEmail (.object (some nulName) (some "test@example.com")) =
      some { Name := nulName, Email := "test@example.com" } ∧
    (createUser testEmail (.object (some nulName) (some "test@example.com")) (some seeded)).status = 500 ∧
    (∀ r ∈ exhausted.rows, r.email ≠ "test@example.com") ∧
    (createUser testEmail (.object (some "Test User") (some "test@example.com")) (some exhausted)).status
      = 500 := by
  refine ⟨by decide, by decide, by decide, by decide, by decide, by decide, by decide, by decide⟩

/-- C1 amended: for every body that passes validation with a name and an email
of at most 100 characters that hold no character U+0000, whose email no row
holds, on a store whose sequence has not reached its 32-bit end and is not
behind any stored id, and whose next two driver calls are undisturbed,
`createUser` answers 201 with a user carrying exactly the submitted name and
email and the next sequence value as id, which is positive and which no earlier
row has, and the table afterwards is the old table followed by that row. -/
theorem createUser_created (isEmail : String → Bool) (body : Body) (req : CreateUserRequest)
    (s : Store) (t : Table)
    (hvalid : ShouldBindJSON isEmail body = some req)
    (hnulN : hasNul req.Name = false) (hnulE : hasNul req.Email = false)
    (hname : req.Name.length ≤ 100) (hemail : req.Email.length ≤ 100)
    (ht : s.users = some t)
    (hmax : t.seq < 2147483647)
    (hfree : ∀ r ∈ t.rows, r.email ≠ req.Email)
    (hseq : ∀ r ∈ t.rows, r.id ≤ t.seq)
    (hq : quietNext 2 s.sched = true) :
    createUser isEmail body (some s) =
        .done { status := 201,
                body := .obj [("user", .obj [("id", .num ((t.seq : Int) + 1)), ("name", .str req.Name),
                                             ("email", .str req.Email), ("created_at", .time s.clock)])] }
          (some { users := some { rows := t.rows ++ [Row.mk ((t.seq : Int) + 1) req.Name req.Email
                                                       (some s.clock)],
                                  seq := t.seq + 1 },
                  clock := s.clock, sched := s.sched.tail.tail,
                  log := s.log ++ [.selectIdByEmail req.Email, .insertUser req.Name req.Email] }) ∧
      body = .object (some req.Name) (some req.Email) ∧
      0 < (t.seq : Int) + 1 ∧
      (∀ r ∈ t.rows, r.id ≠ (t.seq : Int) + 1) := by
  obtain ⟨hbody, _, _, _⟩ := ShouldBindJSON_eq_some isEmail body req hvalid
  rw [quietNext_succ, quietNext_succ] at hq
  obtain ⟨hq1, hq2, _⟩ := hq
  have hfind : t.rows.find? (fun r => r.email == req.Email) = none := by
    rw [List.find?_eq_none]
    intro r hr
    simpa using hfree r hr
  refine ⟨?_, hbody, ?_, ?_⟩
  · have hins := insertUser_quiet (s.issued (.selectIdByEmail req.Email)) t req.Name req.Email hq2 ht
    rw [insert_fresh t _ req.Name req.Email hnulN hnulE hname hemail hmax hfree hseq] at hins
    simp only [createUser, hvalid, selectIdByEmail_quiet s t req.Email hq1 ht hnulE, hfind, hins,
      scanUser]
    simp [User.toJson, Store.issued]
  · omega
  · intro r hr
    have := hseq r hr
    omega

theorem createUser_created_witness :
    createUser testEmail (.object (some "Test User") (some "test@example.com")) (some seeded) =
      .done { status := 201,
              body := .obj [("user", .obj [("id", .num 4), ("name", .str "Test User"),
                                           ("email", .str "test@example.com"), ("created_at", .time 0)])] }
        (some afterTest) :=
  (createUser_created testEmail (.object (some "Test User") (some "test@example.com"))
    { Name := "Test User", Email := "test@example.com" } seeded
    { rows := seeded.rows, seq := 3 } (by decide) (by decide) (by decide) (by decide) (by decide) rfl
    (by decide) (by decide) (by decide) (by decide)).1

/-- C3 as stated fails: on the seeded store, with another session committing the
same email between the two statements, the pre-check finds no row, the INSERT is
rejected by the unique constraint on email, and the answer is 500, not 409. -/
theorem createUser_race_500 :
    (racing.selectIdByEmail "test@example.com").1 = .error .noRows ∧
    ((racing.selectIdByEmail "test@example.com").2.insertUser "Test User" "test@example.com").1 =
      .error (.uniqueViolation "users_email_key") ∧
    (createUser testEmail (.object (some "Test User") (some "test@example.com")) (some racing)).status = 500 ∧
    (createUser testEmail (.object (some "Test User") (some "test@example.com")) (some racing)).status ≠ 409 :=
  ⟨rfl, rfl, by decide, by decide⟩

/-- C3 amended: when the pre-check finds no row for the email and the following
INSERT is rejected by the unique constraint on email, `createUser` answers 500
with the body `{"error": "Failed to create user"}`, as for every other failed
INSERT. -/
theorem createUser_unique_violation_500 (isEmail : String → Bool) (body : Body)
    (req : CreateUserRequest) (s : Store)
    (hvalid : ShouldBindJSON isEmail body = some req)
    (hpre : (s.selectIdByEmail req.Email).1 = .error .noRows)
    (hins : ((s.selectIdByEmail req.Email).2.insertUser req.Name req.Email).1 =
      .error (.uniqueViolation "users_email_key")) :
    createUser isEmail body (some s) =
      .done { status := 500, body := errorBody "Failed to create user" }
        (some ((s.selectIdByEmail req.Email).2.insertUser req.Name req.Email).2) := by
  rcases hA : s.selectIdByEmail req.Email with ⟨resA, sA⟩
  rw [hA] at hpre hins
  simp only at hpre hins
  rcases hB : sA.insertUser req.Name req.Email with ⟨resB, sB⟩
  rw [hB] at hins
  simp only at hins
  subst hpre
  subst hins
  simp [createUser, hvalid, hA, hB]

theorem createUser_unique_violation_500_witness :
    createUser testEmail (.object (some "Test User") (some "test@example.com")) (some racing) =
      .done { status := 500, body := errorBody "Failed to create user" }
        (some ((racing.selectIdByEmail "test@example.com").2.insertUser "Test User" "test@example.com").2) :=
  createUser_unique_violation_500 testEmail (.object (some "Test User") (some "test@example.com"))
    { Name := "Test User", Email := "test@example.com" } racing (by decide) rfl rfl

/-- C6, the code at a failing pre-check: on the seeded store, when the pre-check
query itself fails with a driver error and the INSERT then goes through,
`createUser` answers 201 and the row is in the table. -/
theorem createUser_failed_precheck_201 :
    (flaky.selectIdByEmail "test@example.com").1 = .error .driver ∧
    createUser testEmail (.object (some "Test User") (some "test@example.com")) (some flaky) =
      .done { status := 201,
              body := .obj [("user", testUser.toJson)] }
        (some { users := some { rows := seeded.rows ++ [testUser.toRow], seq := 4 },
                clock := 0, sched := [],
                log := [.selectIdByEmail "test@example.com", .insertUser "Test User" "test@example.com"] }) :=
  ⟨rfl, rfl⟩

/-- C2: once a POST has been answered 201 with a user holding `email`, a second
valid POST with the same email, whatever its name, is answered 409 on an
undisturbed store and leaves the table as it was; the listing that follows
answers 200 with a JSON array holding one object for each decodable row in
ascending id order, and exactly one of them carries that email: the user
created first. -/
theorem createUser_duplicate_409 (isEmail : String → Bool) (name1 name2 : Option String)
    (email : String) (req2 : CreateUserRequest) (s s1 : Store) (user : User)
    (h1 : createUser isEmail (.object name1 (some email)) (some s) =
      .done { status := 201, body := .obj [("user", user.toJson)] } (some s1))
    (hecho : user.Email = email)
    (h2 : ShouldBindJSON isEmail (.object name2 (some email)) = some req2)
    (hq : quietNext 2 s1.sched = true) :
    ∃ listing : List User,
      createUser isEmail (.object name2 (some email)) (some s1) =
        .done { status := 409, body := .obj [("error", .str "User with this email already exists")] }
          (some (s1.issued (.selectIdByEmail email))) ∧
      (s1.issued (.selectIdByEmail email)).rows = s1.rows ∧
      getUsers (some (s1.issued (.selectIdByEmail email))) =
        .done { status := 200,
                body := .obj [("users", .arr (listing.map (fun v =>
                  .obj [("id", .num v.ID), ("name", .str v.Name), ("email", .str v.Email),
                        ("created_at", .time v.CreatedAt)])))] }
          (some ((s1.issued (.selectIdByEmail email)).issued .selectUsers)) ∧
      listing = (s1.rows.insertionSort (fun a b => a.id ≤ b.id)).filterMap
        (fun r => r.created_at.map (fun t => User.mk r.id r.name r.email t)) ∧
      listing.filter (fun u => u.Email == email) = [user] := by
  obtain ⟨req1, t0, hreq1, hnul1, ht0, hfree⟩ := createUser_201_inv isEmail _ s s1 user h1
  obtain ⟨hb1, _, _, _⟩ := ShouldBindJSON_eq_some isEmail _ req1 hreq1
  obtain ⟨hb2, _, _, _⟩ := ShouldBindJSON_eq_some isEmail _ req2 h2
  have hreq : req2.Email = email := by
    simp only [Body.object.injEq, Option.some.injEq] at hb2
    exact hb2.2.symm
  have hnul : hasNul email = false := by
    simp only [Body.object.injEq, Option.some.injEq] at hb1
    rw [hb1.2]
    exact hnul1
  rw [quietNext_succ, quietNext_succ] at hq
  obtain ⟨hq1, hq2, _⟩ := hq
  have hmem : user.toRow ∈ t0.rows ++ [user.toRow] := by simp
  have hfind : ∃ r, (t0.rows ++ [user.toRow]).find? (fun r => r.email == email) = some r := by
    cases hf : (t0.rows ++ [user.toRow]).find? (fun r => r.email == email) with
    | some r => exact ⟨r, rfl⟩
    | none =>
      rw [List.find?_eq_none] at hf
      have := hf _ hmem
      simp [User.toRow, hecho] at this
  obtain ⟨r0, hr0⟩ := hfind
  have hsel := selectUsers_quiet (s1.issued (.selectIdByEmail email)) _ hq2 ht0
  have hrows : s1.rows = t0.rows ++ [user.toRow] := by simp [Store.rows, ht0]
  have hperm : ((t0.rows ++ [user.toRow]).insertionSort (fun a b => a.id ≤ b.id)).Perm
      (t0.rows ++ [user.toRow]) := List.perm_insertionSort _ _
  have hp2 := ((hperm.filterMap decoded).filter (fun u => u.Email == email))
  have hold : (t0.rows.filterMap decoded).filter (fun u => u.Email == email) = [] := by
    rw [List.filter_eq_nil_iff]
    intro u hu
    rcases List.mem_filterMap.mp hu with ⟨r, hr, hru⟩
    have := hfree r hr
    rw [decoded_email r u hru]
    simpa [hecho] using this
  have hnew : ((t0.rows ++ [user.toRow]).filterMap decoded).filter (fun u => u.Email == email)
      = [user] := by
    rw [List.filterMap_append, List.filter_append, hold]
    simp [decoded_toRow, hecho]
  rw [hnew] at hp2
  have hone := List.perm_singleton.mp hp2
  refine ⟨((t0.rows ++ [user.toRow]).insertionSort (fun a b => a.id ≤ b.id)).filterMap decoded,
    ?_, rfl, ?_, ?_, hone⟩
  · simp only [createUser, h2, hreq, selectIdByEmail_quiet s1 _ email hq1 ht0 hnul, hr0]
    rfl
  · simp only [getUsers, hsel, Bool.false_eq_true, if_false, scanLoop_none, Table.ordered]
    cases hl : ((t0.rows ++ [user.toRow]).insertionSort (fun a b => a.id ≤ b.id)).filterMap decoded with
    | nil =>
      rw [hl] at hone
      simp at hone
    | cons u us => rfl
  · rw [hrows, decoded_eq]

theorem createUser_duplicate_409_witness :
    createUser testEmail (.object (some "Second Name") (some "test@example.com")) (some afterTest) =
      .done { status := 409, body := .obj [("error", .str "User with this email already exists")] }
        (some (afterTest.issued (.selectIdByEmail "test@example.com"))) ∧
    getUsers (some (afterTest.issued (.selectIdByEmail "test@example.com"))) =
      .done { status := 200,
              body := .obj [("users", .arr [
                .obj [("id", .num 1), ("name", .str "John Doe"), ("email", .str "john@example.com"),
                      ("created_at", .time 0)],
                .obj [("id", .num 2), ("name", .str "Jane Smith"), ("email", .str "jane@example.com"),
                      ("created_at", .time 0)],
                .obj [("id", .num 3), ("name", .str "Bob Johnson"), ("email", .str "bob@example.com"),
                      ("created_at", .time 0)],
                .obj [("id", .num 4), ("name", .str "Test User"), ("email", .str "test@example.com"),
                      ("created_at", .time 0)]])] }
        (some ((afterTest.issued (.selectIdByEmail "test@example.com")).issued .selectUsers)) := by
  obtain ⟨listing, h409, _, hget, hl, _⟩ :=
    createUser_duplicate_409 testEmail (some "Test User") (some "Second Name") "test@example.com"
      { Name := "Second Name", Email := "test@example.com" } seeded afterTest testUser
      rfl rfl (by decide) (by decide)
  subst hl
  exact ⟨h409, hget⟩

/-! ## Bootstrap -/

/-- C8: on a reachable store (the seven driver calls of two runs meet no event)
`initDB` succeeds, a second `initDB` right after it succeeds as well, although
the table now exists, and leaves the table exactly as the first run left it;
the first run writes the seed rows only into a table without rows, and leaves a
table that has rows as it is. -/
theorem initDB_twice_same_table (env : Env) (s : Store) (hq : quietNext 7 s.sched = true) :
    (initDB env s).1 = none ∧
    (initDB env (initDB env s).2).1 = none ∧
    (initDB env (initDB env s).2).2.users = (initDB env s).2.users ∧
    (s.rows ≠ [] → (initDB env s).2.rows = s.rows) ∧
    (s.rows = [] → (initDB env s).2.rows.map (fun r => (r.name, r.email)) = seedUsers) := by
  have t6 := quietNext_tail 6 _ hq
  have t5 := quietNext_tail 5 _ t6
  have t4 := quietNext_tail 4 _ t5
  have t3 := quietNext_tail 3 _ t4
  have q4 : quietNext 4 s.sched = true :=
    quietNext_mono 4 _ (quietNext_mono 5 _ (quietNext_mono 6 _ hq))
  have q3 : quietNext 3 s.sched = true := quietNext_mono 3 _ q4
  have q3' : quietNext 3 s.sched.tail.tail.tail = true := quietNext_mono 3 _ t4
  by_cases he : s.rows = []
  · have hfirst := initDB_quiet_empty env s q4 he
    have hsecond := initDB_quiet_nonempty env (initDB env s).2
      { rows := seedRows (s.users.getD { rows := [], seq := 0 }).seq s.clock,
        seq := (s.users.getD { rows := [], seq := 0 }).seq + 3 }
      (by rw [hfirst]; exact t3) (by rw [hfirst]) (by simp [seedRows])
    refine ⟨by rw [hfirst], by rw [hsecond], ?_, fun hne => absurd he hne, fun _ => ?_⟩
    · rw [hsecond]
      rfl
    · rw [hfirst]
      rfl
  · obtain ⟨t, ht, hne⟩ : ∃ t, s.users = some t ∧ t.rows ≠ [] := by
      cases hu : s.users with
      | none => simp [Store.rows, hu] at he
      | some t => exact ⟨t, rfl, by simpa [Store.rows, hu] using he⟩
    have hfirst := initDB_quiet_nonempty env s t q3 ht hne
    have hsecond := initDB_quiet_nonempty env (initDB env s).2 t
      (by rw [hfirst]; exact q3') (by rw [hfirst]; exact ht) hne
    refine ⟨by rw [hfirst], by rw [hsecond], ?_, fun _ => ?_, fun h => absurd h he⟩
    · rw [hsecond]
      rfl
    · rw [hfirst]
      rfl

theorem initDB_twice_same_table_witness :
    (initDB (fun _ => none) blank).1 = none ∧
    (initDB (fun _ => none) (initDB (fun _ => none) blank).2).1 = none ∧
    (initDB (fun _ => none) (initDB (fun _ => none) blank).2).2.users = (initDB (fun _ => none) blank).2.users ∧
    (initDB (fun _ => none) blank).2.rows.map (fun r => (r.name, r.email)) = seedUsers ∧
    (initDB (fun _ => none) afterTest).2.rows = afterTest.rows :=
  ⟨(initDB_twice_same_table (fun _ => none) blank (by decide)).1,
   (initDB_twice_same_table (fun _ => none) blank (by decide)).2.1,
   (initDB_twice_same_table (fun _ => none) blank (by decide)).2.2.1,
   (initDB_twice_same_table (fun _ => none) blank (by decide)).2.2.2.2 (by decide),
   (initDB_twice_same_table (fun _ => none) afterTest (by decide)).2.2.2.1 (by decide)⟩

end WebApp
